import Mathlib

/-!
Verification of `.github/include/list-integration-tests.py`.

The script has two phases:

1. `get_kernel_trailers_from_commits` reads `git log` output, splits it
   into commit message blocks on the marker `---ENDOFCOMMIT---`, and scans
   each block from its last line backwards collecting `CI-Test-Kernel:`
   trailer values.

2. `main` checks the argument count, unions the trailer kernels with the
   default kernel from `argv[1]`, and for each kernel emits matrix rows:
   seven fixed single-variant schedulers, `scx_p2dq` (skipped on
   `stable/6_12`), and four `scx_layered` flag combinations; it then
   prints `matrix=` followed by the JSON dump of the rows.

The embedding below translates the string processing to `List Char`
functions (Python `str.strip` is modelled on the full 29-character
Unicode whitespace class CPython uses), the subprocess results to
explicit string inputs, and the Python `set` the kernels are collected
into to a list together with an explicit enumeration predicate
`KernelEnum`, since the iteration order of a Python set is not
specified.
-/

set_option maxRecDepth 100000

namespace ListIntegrationTests

/-- The characters Python `str.strip` removes: the 29 code points of
the Unicode whitespace class used by CPython (`str.isspace`), namely
0x09-0x0D, 0x1C-0x1F, the space, NEL 0x85, NBSP 0xA0, Ogham space
0x1680, the typographic spaces 0x2000-0x200A, the line and paragraph
separators 0x2028 and 0x2029, 0x202F, 0x205F and the ideographic space
0x3000. -/
def pyIsSpace (c : Char) : Bool :=
  (0x09 ≤ c.toNat && c.toNat ≤ 0x0D) || c = ' '
    || (0x1C ≤ c.toNat && c.toNat ≤ 0x1F)
    || c.toNat = 0x85 || c.toNat = 0xA0
    || c.toNat = 0x1680
    || (0x2000 ≤ c.toNat && c.toNat ≤ 0x200A)
    || c.toNat = 0x2028 || c.toNat = 0x2029 || c.toNat = 0x202F
    || c.toNat = 0x205F || c.toNat = 0x3000

/-- Python `str.lstrip`. -/
def stripLeft (l : List Char) : List Char :=
  l.dropWhile pyIsSpace

/-- Python `str.rstrip`. -/
def stripRight (l : List Char) : List Char :=
  (l.reverse.dropWhile pyIsSpace).reverse

/-- Python `str.strip`: drop whitespace from both ends. -/
def pyStrip (l : List Char) : List Char :=
  stripRight (stripLeft l)

/-- The trailer marker scanned for: `CI-Test-Kernel:`. -/
def ciMarker : List Char := "CI-Test-Kernel:".data

/-- `line.split(":", 1)[1]`: everything after the first colon.
Only used on lines that contain a colon. -/
def afterFirstColon : List Char → List Char
  | [] => []
  | c :: rest => if c = ':' then rest else afterFirstColon rest

/-- The backward scan of `get_kernel_trailers_from_commits`, lines 70-85 of
the script, on the reversed line list of one commit message: skip blank
lines, stop at the first non-blank line without a colon, and collect the
stripped value of every `CI-Test-Kernel:` line seen before the stop. -/
def scanLines : List (List Char) → List String
  | [] => []
  | l :: rest =>
    let line := pyStrip l
    if line = [] then scanLines rest
    else if ':' ∈ line then
      (if ciMarker.isPrefixOf line
        then [String.mk (pyStrip (afterFirstColon line))]
        else [])
        ++ scanLines rest
    else []

/-- Processing of a single commit message block: strip it, skip it when
blank, otherwise split into lines and run the backward trailer scan. -/
def trailersOfMessage (msg : List Char) : List String :=
  let m := pyStrip msg
  if m = [] then []
  else scanLines (m.splitOn '\n').reverse

/-- Python `str.split(sep)` for a non-empty separator list, with an
accumulator for the current piece (kept reversed).  The fuel argument,
instantiated with the length of the input, keeps the recursion
structural; it never runs out because every step consumes at least one
character. -/
def splitOnSubGo (sep : List Char) : Nat → List Char → List Char → List (List Char)
  | _, acc, [] => [acc.reverse]
  | fuel + 1, acc, c :: rest =>
    if sep.isPrefixOf (c :: rest) then
      acc.reverse :: splitOnSubGo sep fuel [] (rest.drop (sep.length - 1))
    else
      splitOnSubGo sep fuel (c :: acc) rest
  | 0, acc, l => [acc.reverse ++ l]

/-- Python `str.split(sep)` with a non-empty separator. -/
def splitOnSub (sep l : List Char) : List (List Char) :=
  splitOnSubGo sep l.length [] l

/-- The marker the script puts between commit messages in the git log
format string. -/
def endMarker : List Char := "---ENDOFCOMMIT---".data

/-- `get_kernel_trailers_from_commits`, as a function of the captured
`git log` standard output: return nothing when the output strips to
empty, otherwise split into commit message blocks and collect the
trailer values of every block.  The Python code accumulates into a set;
here the values are returned as a list, in scan order. -/
def getKernelTrailers (gitOut : List Char) : List String :=
  if pyStrip gitOut = [] then []
  else ((splitOnSub endMarker gitOut).map trailersOfMessage).flatten

/-- One entry of the output matrix: the Python dict
with keys `name`, `flags` and `kernel`, in that insertion order. -/
structure Row where
  name : String
  flags : String
  kernel : String
deriving DecidableEq

/-- The seven single-variant schedulers, in the order listed in `main`. -/
def schedulers : List String :=
  ["scx_bpfland", "scx_chaos", "scx_lavd", "scx_rlfifo",
   "scx_rustland", "scx_rusty", "scx_tickless"]

/-- `itertools.product` of two lists: the second component varies fastest. -/
def listProd (xs ys : List String) : List (String × String) :=
  xs.flatMap (fun x => ys.map (fun y => (x, y)))

/-- The flag combinations `itertools.product` yields for `scx_layered`. -/
def layeredFlagCombos : List (String × String) :=
  listProd ["--disable-topology=false", "--disable-topology=true"]
    ["", "--disable-antistall"]

/-- Python `" ".join(flags)` on the 2-tuple from `itertools.product`:
join with a single space, keeping empty components. -/
def spaceJoin (p : String × String) : String :=
  String.intercalate " " [p.1, p.2]

/-- The rows `main` appends to the matrix for one kernel: the loop body
of `for kernel in kernels_to_test`, lines 109-135 of the script. -/
def rowsForKernel (defaultKernel kernel : String) : List Row :=
  let kernelName := if kernel = defaultKernel then "" else kernel
  (schedulers.map fun s => ⟨s, "", kernelName⟩)
    ++ (if kernel ≠ "stable/6_12" then [⟨"scx_p2dq", "", kernelName⟩] else [])
    ++ (layeredFlagCombos.map fun p => ⟨"scx_layered", spaceJoin p, kernelName⟩)

/-- The whole matrix built by `main`, given the iteration order `kernels`
of the Python set `kernels_to_test`. -/
def buildMatrix (defaultKernel : String) (kernels : List String) : List Row :=
  kernels.flatMap (rowsForKernel defaultKernel)

/-- `ks` is a possible iteration order of the Python set
`kernels_to_test = set([default]) | set(trailers)`: duplicate-free and
containing exactly the default kernel and the trailer kernels. -/
def KernelEnum (defaultKernel : String) (trailers ks : List String) : Prop :=
  ks.Nodup ∧ ∀ k, k ∈ ks ↔ (k = defaultKernel ∨ k ∈ trailers)

/-- The hexadecimal digits used by Python `json.dumps` in `\uXXXX`
escapes (lowercase). -/
def hexDigitChar (n : Nat) : Char :=
  "0123456789abcdef".data.getD n '0'

/-- Four-digit lowercase hexadecimal rendering of `n < 0x10000`. -/
def toHex4 (n : Nat) : List Char :=
  [hexDigitChar (n / 4096 % 16), hexDigitChar (n / 256 % 16),
   hexDigitChar (n / 16 % 16), hexDigitChar (n % 16)]

/-- Escaping of one character by Python `json.dumps` with its default
`ensure_ascii=True`: backslash-escape the quote, the backslash and the
named control characters, `\uXXXX`-escape the remaining control and
non-ASCII characters (as a surrogate pair beyond the basic plane), and
pass printable ASCII through. -/
def escChar (c : Char) : List Char :=
  if c = '"' then ['\\', '"']
  else if c = '\\' then ['\\', '\\']
  else if c = '\x08' then ['\\', 'b']
  else if c = '\x0c' then ['\\', 'f']
  else if c = '\n' then ['\\', 'n']
  else if c = '\r' then ['\\', 'r']
  else if c = '\t' then ['\\', 't']
  else if c.toNat < 0x20 then '\\' :: 'u' :: toHex4 c.toNat
  else if c.toNat < 0x7f then [c]
  else if c.toNat < 0x10000 then '\\' :: 'u' :: toHex4 c.toNat
  else
    ('\\' :: 'u' :: toHex4 (0xD800 + (c.toNat - 0x10000) / 0x400))
      ++ ('\\' :: 'u' :: toHex4 (0xDC00 + (c.toNat - 0x10000) % 0x400))

/-- The escaped body of a JSON string literal. -/
def escBody (s : List Char) : List Char :=
  (s.map escChar).flatten

/-- A JSON string literal: quote, escaped body, quote. -/
def jsonStringLit (s : String) : List Char :=
  '"' :: escBody s.data ++ ['"']

/-- `json.dumps` of one matrix row: an object literal with the keys in
dict insertion order and the default separators. -/
def jsonRowChars (r : Row) : List Char :=
  "\x7b\"name\": ".data ++ jsonStringLit r.name
    ++ ", \"flags\": ".data ++ jsonStringLit r.flags
    ++ ", \"kernel\": ".data ++ jsonStringLit r.kernel
    ++ "\x7d".data

/-- The row literals joined with the default `", "` item separator. -/
def sepJoinRows : List Row → List Char
  | [] => []
  | [r] => jsonRowChars r
  | r :: rest => jsonRowChars r ++ ", ".data ++ sepJoinRows rest

/-- `json.dumps` of the whole matrix. -/
def jsonDumps (rows : List Row) : String :=
  String.mk ('[' :: sepJoinRows rows ++ [']'])

/-- Observable outcome of running `main`: either the argument-count
usage error (which exits with status 1 after printing to stderr), or a
normal run printing a single line to stdout.  The diagnostic lines the
trailer scan writes to stderr are not part of the outcome; no claim
concerns them. -/
inductive MainOutcome where
  | usageError (message : String)
  | success (line : String)
deriving DecidableEq

/-- The usage message printed on a wrong argument count. -/
def usageText : String := "Usage: list-integration-tests.py <default-kernel>"

/-- Process exit code of an outcome: `sys.exit(1)` on the usage error,
0 on a normal run. -/
def outcomeExitCode : MainOutcome → Nat
  | .usageError _ => 1
  | .success _ => 0

/-- The lines printed to standard output: every print of the script
except the final matrix line goes to stderr. -/
def outcomeStdout : MainOutcome → List String
  | .usageError _ => []
  | .success line => [line]

/-- `main`, as a function of `sys.argv`, the captured `git log` output,
and the iteration order `ks` of the set `kernels_to_test` (constrained
by `KernelEnum` in the theorems below). -/
def pymain (argv : List String) (gitOut : List Char) (ks : List String) : MainOutcome :=
  if argv.length ≠ 2 then .usageError usageText
  else .success ("matrix=" ++ jsonDumps (buildMatrix (argv.getD 1 "") ks))

/-- Modelled from the spec wording of claim C1: the space-joined,
non-empty-filtered concatenation of the two flag strings.  This is the
behaviour the spec ascribes to the `scx_layered` flags field; the code
itself uses `spaceJoin`. -/
def spaceJoinFiltered (p : String × String) : String :=
  String.intercalate " " ([p.1, p.2].filter (fun s => s ≠ ""))

/-! ### A checking parser for the printed JSON

The definitions below are spec-side: they state what it means for the
printed line to parse back as a JSON array of objects with exactly the
three string keys `name`, `flags`, `kernel`.  The grammar accepted is
the sub-grammar of JSON that `json.dumps` emits for such arrays, so a
successful parse witnesses the round-trip property. -/

/-- Value of one hexadecimal digit character (lowercase letters). -/
def hexVal (c : Char) : Option Nat :=
  if '0' ≤ c ∧ c ≤ '9' then some (c.toNat - 48)
  else if 'a' ≤ c ∧ c ≤ 'f' then some (c.toNat - 87)
  else none

/-- Read four hexadecimal digits. -/
def hex4Val : List Char → Option (Nat × List Char)
  | a :: b :: c :: d :: rest =>
    match hexVal a, hexVal b, hexVal c, hexVal d with
    | some x, some y, some z, some w => some (x * 4096 + y * 256 + z * 16 + w, rest)
    | _, _, _, _ => none
  | _ => none

/-- Combine a high surrogate value with a decoded low surrogate value. -/
def combineSurrogates (n m : Nat) (rest : List Char) : Option (Char × List Char) :=
  if 0xDC00 ≤ m ∧ m < 0xE000 then
    some (Char.ofNat (0x10000 + (n - 0xD800) * 0x400 + (m - 0xDC00)), rest)
  else none

/-- After a high surrogate, decode the mandatory `\uXXXX` low
surrogate. -/
def decodeLowPart (n : Nat) : List Char → Option (Char × List Char)
  | e1 :: e2 :: rest3 =>
    if e1 = '\\' ∧ e2 = 'u' then
      (hex4Val rest3).bind fun q => combineSurrogates n q.1 q.2
    else none
  | _ => none

/-- Interpret one decoded `\uXXXX` value. -/
def decodeScalar (n : Nat) (rest : List Char) : Option (Char × List Char) :=
  if n < 0xD800 ∨ 0xE000 ≤ n then some (Char.ofNat n, rest)
  else if n < 0xDC00 then decodeLowPart n rest
  else none

/-- Decode the four hexadecimal digits after a `\u`, resolving a
surrogate pair for characters beyond the basic plane. -/
def decodeU (l : List Char) : Option (Char × List Char) :=
  (hex4Val l).bind fun p => decodeScalar p.1 p.2

/-- Decode one JSON escape sequence (after the leading backslash). -/
def decodeEsc : List Char → Option (Char × List Char)
  | [] => none
  | e :: rest =>
    if e = '"' then some ('"', rest)
    else if e = '\\' then some ('\\', rest)
    else if e = '/' then some ('/', rest)
    else if e = 'b' then some ('\x08', rest)
    else if e = 'f' then some ('\x0c', rest)
    else if e = 'n' then some ('\n', rest)
    else if e = 'r' then some ('\r', rest)
    else if e = 't' then some ('\t', rest)
    else if e = 'u' then decodeU rest
    else none

/-- Parse the body of a JSON string literal up to its closing quote,
returning the decoded characters and the remaining input.  Fuel keeps
the recursion structural; a step consumes at least one character. -/
def parseJStrF : Nat → List Char → Option (List Char × List Char)
  | 0, _ => none
  | fuel + 1, l =>
    match l with
    | [] => none
    | c :: rest =>
      if c = '"' then some ([], rest)
      else if c = '\\' then
        match decodeEsc rest with
        | none => none
        | some (d, rest2) => (parseJStrF fuel rest2).map (fun p => (d :: p.1, p.2))
      else (parseJStrF fuel rest).map (fun p => (c :: p.1, p.2))

/-- Require a literal piece of input. -/
def expectL (pat l : List Char) : Option (List Char) :=
  if pat.isPrefixOf l then some (l.drop pat.length) else none

/-- Parse a complete JSON string literal: an opening quote, then the
body up to the closing quote. -/
def parseJLit : List Char → Option (List Char × List Char)
  | c :: t => if c = '"' then parseJStrF (t.length + 1) t else none
  | [] => none

/-- Parse one object with exactly the keys `name`, `flags`, `kernel`
and string values. -/
def parseRow (l : List Char) : Option (Row × List Char) := do
  let l1 ← expectL "\x7b\"name\": ".data l
  let (nm, l2) ← parseJLit l1
  let l3 ← expectL ", \"flags\": ".data l2
  let (fl, l4) ← parseJLit l3
  let l5 ← expectL ", \"kernel\": ".data l4
  let (kn, l6) ← parseJLit l5
  let l7 ← expectL "\x7d".data l6
  some (⟨String.mk nm, String.mk fl, String.mk kn⟩, l7)

/-- Parse a `", "`-separated non-empty sequence of row objects. -/
def parseRowsF : Nat → List Char → Option (List Row × List Char)
  | 0, _ => none
  | fuel + 1, l =>
    match parseRow l with
    | none => none
    | some (r, rest) =>
      if ", ".data.isPrefixOf rest then
        match parseRowsF fuel (rest.drop 2) with
        | none => none
        | some (rs, rest2) => some (r :: rs, rest2)
      else some ([r], rest)

/-- Parse a complete JSON array of row objects, consuming all input. -/
def jsonParseMatrix (l : List Char) : Option (List Row) :=
  if l = "[]".data then some []
  else
    match l with
    | c :: t =>
      if c = '[' then
        match parseRowsF t.length t with
        | some (rs, rest) => if rest = "]".data then some rs else none
        | none => none
      else none
    | [] => none

/-- A line that halts the backward trailer scan: non-blank after
stripping, and without a colon. -/
def isStopLine (l : List Char) : Bool :=
  !(pyStrip l).isEmpty && !((pyStrip l).contains ':')

/-- The trailer value a single line contributes, if any: the line must
strip to something non-blank that contains a colon and starts with
`CI-Test-Kernel:`; the value is everything after the first colon,
stripped. -/
def ciValue (l : List Char) : Option String :=
  let line := pyStrip l
  if line ≠ [] ∧ ':' ∈ line ∧ ciMarker.isPrefixOf line then
    some (String.mk (pyStrip (afterFirstColon line)))
  else none

example : trailersOfMessage "title\n\nbody line without colon\nCI-Test-Kernel: foo".data
    = ["foo"] := by decide

example : trailersOfMessage "title\n\nCI-Test-Kernel: foo\nsome note without colon".data
    = [] := by decide

example : getKernelTrailers " \n \t ".data = [] := by decide

example : getKernelTrailers "\u00A0\n".data = [] := by decide

example : trailersOfMessage "title\n\nCI-Test-Kernel: a\n\u00A0\nCI-Test-Kernel: b".data
    = ["b", "a"] := by decide

example : trailersOfMessage "title\n\n\u00A0CI-Test-Kernel: foo".data = ["foo"] := by decide

example : trailersOfMessage "CI-Test-Kernel: zen\u00A0".data = ["zen"] := by decide

example :
    getKernelTrailers
      "first\n\nCI-Test-Kernel: a\n---ENDOFCOMMIT---\nsecond\n\nCI-Test-Kernel: b\n---ENDOFCOMMIT---\n".data
      = ["a", "b"] := by decide

example : (rowsForKernel "stable/6_13" "stable/6_13").length = 12 := by decide

example : (rowsForKernel "stable/6_13" "stable/6_12").length = 11 := by decide

example : jsonDumps [⟨"scx_rusty", "", ""⟩]
    = "[\x7b\"name\": \"scx_rusty\", \"flags\": \"\", \"kernel\": \"\"\x7d]" := by decide

example :
    jsonParseMatrix (jsonDumps [⟨"scx_rusty", "", ""⟩, ⟨"scx_layered", "--disable-topology=false ", "a\"b\\c"⟩]).data
    = some [⟨"scx_rusty", "", ""⟩, ⟨"scx_layered", "--disable-topology=false ", "a\"b\\c"⟩] := by decide

example : jsonParseMatrix (jsonDumps []).data = some [] := by decide

example :
    pymain ["list-integration-tests.py", "stable/6_13"] [] ["stable/6_13"]
      = .success ("matrix=" ++ jsonDumps (buildMatrix "stable/6_13" ["stable/6_13"])) := by decide

/-! ### Properties of the Python strip operations -/

lemma stripLeft_cons (c : Char) (t : List Char) :
    stripLeft (c :: t) = if pyIsSpace c then stripLeft t else c :: t := by
  simp [stripLeft, List.dropWhile_cons]

lemma stripLeft_eq_nil_iff (l : List Char) :
    stripLeft l = [] ↔ ∀ c ∈ l, pyIsSpace c := by
  simp [stripLeft, List.dropWhile_eq_nil_iff]

lemma stripRight_eq_nil_iff (l : List Char) :
    stripRight l = [] ↔ ∀ c ∈ l, pyIsSpace c := by
  simp [stripRight, List.dropWhile_eq_nil_iff, List.mem_reverse]

lemma stripRight_cons (c : Char) (t : List Char) :
    stripRight (c :: t) =
      if stripRight t = [] then (if pyIsSpace c then [] else [c])
      else c :: stripRight t := by
  unfold stripRight
  rw [List.reverse_cons, List.dropWhile_append]
  by_cases h : List.dropWhile pyIsSpace t.reverse = []
  · simp [h, List.dropWhile]
    cases pyIsSpace c <;> simp
  · simp [h]

lemma stripRight_append (x v : List Char) (h : ∀ c ∈ x, pyIsSpace c = false) :
    stripRight (x ++ v) = x ++ stripRight v := by
  induction x with
  | nil => rfl
  | cons c t ih =>
    have hc : pyIsSpace c = false := h c (by simp)
    have ht : ∀ d ∈ t, pyIsSpace d = false := fun d hd => h d (by simp [hd])
    rw [List.cons_append, stripRight_cons, ih ht, hc]
    by_cases h0 : t ++ stripRight v = [] <;> simp [h0]

lemma stripRight_idem (l : List Char) :
    stripRight (stripRight l) = stripRight l := by
  simp [stripRight, List.reverse_reverse, List.dropWhile_idempotent]

lemma stripLeft_stripRight_comm (l : List Char) :
    stripLeft (stripRight l) = stripRight (stripLeft l) := by
  induction l with
  | nil => rfl
  | cons c t ih =>
    rw [stripLeft_cons, stripRight_cons]
    by_cases hc : pyIsSpace c <;> by_cases h0 : stripRight t = []
    · have h1 : stripLeft t = [] :=
        (stripLeft_eq_nil_iff t).mpr ((stripRight_eq_nil_iff t).mp h0)
      simp only [hc, h0, h1, eq_self_iff_true, if_true]
      rfl
    · simp [hc, h0, stripLeft_cons, ih]
    · simp [hc, h0, stripLeft_cons, stripRight_cons]
    · simp [hc, h0, stripLeft_cons, stripRight_cons]

lemma pyStrip_stripRight (l : List Char) :
    pyStrip (stripRight l) = pyStrip l := by
  unfold pyStrip
  rw [stripLeft_stripRight_comm, stripRight_idem]

/-! ### The backward trailer scan -/

lemma isStopLine_false_iff (l : List Char) :
    isStopLine l = false ↔ (pyStrip l = [] ∨ ':' ∈ pyStrip l) := by
  simp [isStopLine, List.isEmpty_iff, List.elem_iff, Decidable.or_iff_not_imp_left]

/-- The backward scan is: take lines until the first stopper, and keep
the trailer value of each taken line. -/
lemma scanLines_eq (rev : List (List Char)) :
    scanLines rev = (rev.takeWhile (fun l => !isStopLine l)).filterMap ciValue := by
  induction rev with
  | nil => rfl
  | cons l rest ih =>
    by_cases hb : pyStrip l = []
    · have hstop : isStopLine l = false := (isStopLine_false_iff l).mpr (Or.inl hb)
      have hval : ciValue l = none := by simp [ciValue, hb]
      simp [scanLines, hb, List.takeWhile_cons, hstop, hval, ih]
    · by_cases hc : ':' ∈ pyStrip l
      · have hstop : isStopLine l = false := (isStopLine_false_iff l).mpr (Or.inr hc)
        by_cases hp : ciMarker.isPrefixOf (pyStrip l)
        · simp [scanLines, hb, hc, hp, List.takeWhile_cons, hstop, ciValue, ih]
        · simp [scanLines, hb, hc, hp, List.takeWhile_cons, hstop, ciValue, ih]
      · have hstop : isStopLine l = true := by
          simp [isStopLine, List.isEmpty_iff, List.elem_iff, hb, hc]
        simp [scanLines, hb, hc, List.takeWhile_cons, hstop]

/-- Every character of the trailer marker is non-whitespace. -/
lemma ciMarker_no_space : ∀ c ∈ ciMarker, pyIsSpace c = false := by decide

lemma pyStrip_marker_append (v : List Char) :
    pyStrip (ciMarker ++ v) = ciMarker ++ stripRight v := by
  unfold pyStrip
  have h1 : stripLeft (ciMarker ++ v) = ciMarker ++ v := by
    have : ciMarker ++ v = 'C' :: ("I-Test-Kernel:".data ++ v) := rfl
    rw [this, stripLeft_cons]
    simp [pyIsSpace]
  rw [h1, stripRight_append _ _ ciMarker_no_space]

lemma afterFirstColon_marker (w : List Char) :
    afterFirstColon (ciMarker ++ w) = w := rfl

/-- A line that is the trailer marker followed by anything contributes
exactly the stripped remainder as its value. -/
lemma scanLines_marker_line (v : List Char) :
    scanLines [ciMarker ++ v] = [String.mk (pyStrip v)] := by
  have hline := pyStrip_marker_append v
  have hne : pyStrip (ciMarker ++ v) ≠ [] := by rw [hline]; simp [ciMarker]
  have hcolon : ':' ∈ pyStrip (ciMarker ++ v) := by
    rw [hline]
    exact List.mem_append_left _ (by decide)
  have hpre : ciMarker.isPrefixOf (pyStrip (ciMarker ++ v)) = true := by
    rw [hline, List.isPrefixOf_iff_prefix]
    exact List.prefix_append _ _
  have h2 : ¬(ciMarker = [] ∧ stripRight v = []) := by
    rintro ⟨h, _⟩
    exact absurd h (by decide)
  have h3 : (':' ∈ ciMarker ∨ ':' ∈ stripRight v) := Or.inl (by decide)
  simp [scanLines, hne, hcolon, hpre, hline, afterFirstColon_marker, pyStrip_stripRight]
  rw [if_neg h2, if_pos h3]

/-! ### The per-kernel row block -/

/-- Explicit form of the row block `main` emits for one kernel. -/
lemma rowsForKernel_eq (d k : String) :
    rowsForKernel d k =
      [⟨"scx_bpfland", "", if k = d then "" else k⟩,
       ⟨"scx_chaos", "", if k = d then "" else k⟩,
       ⟨"scx_lavd", "", if k = d then "" else k⟩,
       ⟨"scx_rlfifo", "", if k = d then "" else k⟩,
       ⟨"scx_rustland", "", if k = d then "" else k⟩,
       ⟨"scx_rusty", "", if k = d then "" else k⟩,
       ⟨"scx_tickless", "", if k = d then "" else k⟩]
      ++ (if k = "stable/6_12" then []
          else [⟨"scx_p2dq", "", if k = d then "" else k⟩])
      ++ [⟨"scx_layered", "--disable-topology=false ", if k = d then "" else k⟩,
          ⟨"scx_layered", "--disable-topology=false --disable-antistall",
            if k = d then "" else k⟩,
          ⟨"scx_layered", "--disable-topology=true ", if k = d then "" else k⟩,
          ⟨"scx_layered", "--disable-topology=true --disable-antistall",
            if k = d then "" else k⟩] := by
  have h1 : spaceJoin ("--disable-topology=false", "") = "--disable-topology=false " := by
    decide
  have h2 : spaceJoin ("--disable-topology=false", "--disable-antistall")
      = "--disable-topology=false --disable-antistall" := by decide
  have h3 : spaceJoin ("--disable-topology=true", "") = "--disable-topology=true " := by
    decide
  have h4 : spaceJoin ("--disable-topology=true", "--disable-antistall")
      = "--disable-topology=true --disable-antistall" := by decide
  by_cases h : k = "stable/6_12" <;>
    simp [rowsForKernel, schedulers, layeredFlagCombos, listProd, h, h1, h2, h3, h4]

/-! ### Claim theorems -/

/-- C1 (counterexample): the flags of the `scx_layered` rows are not the
empty-filtered space-join.  The pair with empty second component would
give `--disable-topology=false` under filtering, but no emitted row
carries those flags: the actual flags keep a trailing space, because
Python `" ".join` does not filter empty strings. -/
theorem claim_C1_cex :
    spaceJoinFiltered ("--disable-topology=false", "") = "--disable-topology=false" ∧
    ((rowsForKernel "stable/6_13" "stable/6_13").filter
        (fun r => r.name == "scx_layered" && r.flags == "--disable-topology=false")) = [] ∧
    ((rowsForKernel "stable/6_13" "stable/6_13").filter
        (fun r => r.name == "scx_layered")).map (fun r => r.flags)
        ≠ layeredFlagCombos.map spaceJoinFiltered := by
  refine ⟨by decide, by decide, by decide⟩

/-- C1 (amended): for every kernel, exactly four `scx_layered` rows are
emitted, one per pair of the product, and each row's flags field is the
plain space-join of the two chosen flag strings with no filtering of
empty strings, so when the second string is empty the flags equal the
first string followed by a trailing space. -/
theorem claim_C1 (d k : String) :
    ((rowsForKernel d k).filter (fun r => r.name == "scx_layered")).length = 4 ∧
    ((rowsForKernel d k).filter (fun r => r.name == "scx_layered")).map (fun r => r.flags)
        = layeredFlagCombos.map spaceJoin ∧
    layeredFlagCombos.map spaceJoin
        = ["--disable-topology=false ",
           "--disable-topology=false --disable-antistall",
           "--disable-topology=true ",
           "--disable-topology=true --disable-antistall"] := by
  refine ⟨?_, ?_, by decide⟩ <;>
    (rw [rowsForKernel_eq]
     by_cases h : k = "stable/6_12" <;> simp [h, List.filter] <;> decide)

/-- C2: over one commit message block, trailer extraction scans the
reversed line list, skipping blank lines, halting at the first
non-blank line without a colon, and collecting the stripped value of
every `CI-Test-Kernel:` line seen before the halt; in particular the
two referenced concrete messages extract `foo` and nothing
respectively, and a line of Unicode whitespace (here a no-break space)
counts as blank, so the scan continues past it. -/
theorem claim_C2 :
    (∀ rev : List (List Char),
        scanLines rev = (rev.takeWhile (fun l => !isStopLine l)).filterMap ciValue) ∧
    trailersOfMessage "title\n\nbody line without colon\nCI-Test-Kernel: foo".data
        = ["foo"] ∧
    trailersOfMessage "title\n\nCI-Test-Kernel: foo\nsome note without colon".data
        = [] ∧
    trailersOfMessage "title\n\nCI-Test-Kernel: a\n\u00A0\nCI-Test-Kernel: b".data
        = ["b", "a"] :=
  ⟨scanLines_eq, by decide, by decide, by decide⟩

/-- C3: the matrix is the concatenation of the per-kernel blocks; each
block has 7 single-variant rows, 4 `scx_layered` rows, and one
`scx_p2dq` row unless the kernel is the literal `stable/6_12`, for 12
rows in general and 11 for `stable/6_12`, whose block never contains an
`scx_p2dq` row. -/
theorem claim_C3 (d k : String) (ks : List String) :
    buildMatrix d ks = ks.flatMap (rowsForKernel d) ∧
    (rowsForKernel d k).length = (if k = "stable/6_12" then 11 else 12) ∧
    ((rowsForKernel d k).filter (fun r => schedulers.contains r.name)).length = 7 ∧
    ((rowsForKernel d k).filter (fun r => r.name == "scx_layered")).length = 4 ∧
    ((rowsForKernel d k).filter (fun r => r.name == "scx_p2dq")).length
        = (if k = "stable/6_12" then 0 else 1) ∧
    (rowsForKernel d "stable/6_12").all (fun r => !(r.name == "scx_p2dq")) = true := by
  refine ⟨rfl, ?_, ?_, ?_, ?_, ?_⟩ <;>
    (rw [rowsForKernel_eq]
     by_cases h : k = "stable/6_12" <;>
       simp [h, List.filter, schedulers, List.contains, List.elem])

/-- C5: every row of the block emitted for a kernel carries the empty
string in its kernel field when the kernel is the default, and the
kernel string itself otherwise. -/
theorem claim_C5 (d k : String) :
    (rowsForKernel d k).all (fun r => r.kernel == (if k = d then "" else k)) = true := by
  rw [rowsForKernel_eq]
  by_cases h : k = "stable/6_12" <;> simp [h]

/-- C7: with an argument count different from exactly one positional
argument, `main` exits with code 1 after printing the usage message to
the diagnostic stream and prints nothing to standard output. -/
theorem claim_C7 (argv : List String) (gitOut : List Char) (ks : List String)
    (h : argv.length ≠ 2) :
    pymain argv gitOut ks = .usageError usageText ∧
    outcomeExitCode (pymain argv gitOut ks) = 1 ∧
    outcomeStdout (pymain argv gitOut ks) = [] := by
  simp [pymain, h, outcomeExitCode, outcomeStdout]

/-- C7 witness: a run with no positional argument. -/
theorem claim_C7_wit :
    pymain ["list-integration-tests.py"] [] [] = .usageError usageText ∧
    outcomeExitCode (pymain ["list-integration-tests.py"] [] []) = 1 ∧
    outcomeStdout (pymain ["list-integration-tests.py"] [] []) = [] :=
  claim_C7 ["list-integration-tests.py"] [] [] (by decide)

/-- C8: a scanned line is stripped before the `CI-Test-Kernel:` prefix
test, so an indented trailer is recognized (also under Unicode
whitespace indentation such as a no-break space); and the value is
everything after the first colon only, stripped, so inner colons
survive: the general form says a line that is the marker followed by
`v` contributes exactly `v` stripped, colons included. -/
theorem claim_C8 :
    trailersOfMessage "title\n\n\tCI-Test-Kernel: a:b".data = ["a:b"] ∧
    trailersOfMessage "title\n\n\u00A0CI-Test-Kernel: a:b".data = ["a:b"] ∧
    trailersOfMessage "CI-Test-Kernel: a:b\u00A0".data = ["a:b"] ∧
    ∀ v : List Char, scanLines [ciMarker ++ v] = [String.mk (pyStrip v)] :=
  ⟨by decide, by decide, by decide, scanLines_marker_line⟩

/-- C9: the matrix is the concatenation over the kernel iteration order
of per-kernel blocks, and each block lists the seven single-variant
schedulers in their fixed order, then `scx_p2dq` when present, then the
four `scx_layered` rows in product order: topology `false` paired with
the empty flag and then with `--disable-antistall`, followed by
topology `true` with the same two. -/
theorem claim_C9 :
    (∀ (d : String) (ks : List String), buildMatrix d ks = ks.flatMap (rowsForKernel d)) ∧
    ∀ d k : String, rowsForKernel d k =
      [⟨"scx_bpfland", "", if k = d then "" else k⟩,
       ⟨"scx_chaos", "", if k = d then "" else k⟩,
       ⟨"scx_lavd", "", if k = d then "" else k⟩,
       ⟨"scx_rlfifo", "", if k = d then "" else k⟩,
       ⟨"scx_rustland", "", if k = d then "" else k⟩,
       ⟨"scx_rusty", "", if k = d then "" else k⟩,
       ⟨"scx_tickless", "", if k = d then "" else k⟩]
      ++ (if k = "stable/6_12" then []
          else [⟨"scx_p2dq", "", if k = d then "" else k⟩])
      ++ [⟨"scx_layered", "--disable-topology=false ", if k = d then "" else k⟩,
          ⟨"scx_layered", "--disable-topology=false --disable-antistall",
            if k = d then "" else k⟩,
          ⟨"scx_layered", "--disable-topology=true ", if k = d then "" else k⟩,
          ⟨"scx_layered", "--disable-topology=true --disable-antistall",
            if k = d then "" else k⟩] :=
  ⟨fun _ _ => rfl, rowsForKernel_eq⟩

/-- C10: the backward scan includes the subject line: a single-line
message whose only line is a trailer yields its value, a subject
trailer below another trailer line is reached, and in general any
single-line message whose stripped line starts with the marker
contributes its value. -/
theorem claim_C10 :
    trailersOfMessage "CI-Test-Kernel: foo".data = ["foo"] ∧
    trailersOfMessage "CI-Test-Kernel: a\nCI-Test-Kernel: b".data = ["b", "a"] ∧
    ∀ subject : List Char, ciMarker.isPrefixOf (pyStrip subject) = true →
      scanLines [subject] = [String.mk (pyStrip (afterFirstColon (pyStrip subject)))] := by
  refine ⟨by decide, by decide, ?_⟩
  intro s hpre
  have hpre' : ciMarker <+: pyStrip s := List.isPrefixOf_iff_prefix.mp hpre
  have hne : pyStrip s ≠ [] := by
    intro h
    rw [h] at hpre'
    have h0 : ciMarker = [] := List.prefix_nil.mp hpre'
    exact absurd h0 (by decide)
  have hcolon : ':' ∈ pyStrip s := hpre'.subset (by decide)
  simp [scanLines, hne, hcolon, hpre]

/-- C10 witness: a concrete single-line trailer subject, carrying a
trailing no-break space that the value stripping removes. -/
theorem claim_C10_wit :
    ciMarker.isPrefixOf (pyStrip "CI-Test-Kernel: zen\u00A0".data) = true ∧
    scanLines ["CI-Test-Kernel: zen\u00A0".data]
      = [String.mk (pyStrip (afterFirstColon (pyStrip "CI-Test-Kernel: zen\u00A0".data)))] ∧
    String.mk (pyStrip (afterFirstColon (pyStrip "CI-Test-Kernel: zen\u00A0".data))) = "zen" :=
  ⟨by decide, claim_C10.2.2 "CI-Test-Kernel: zen\u00A0".data (by decide), by decide⟩

/-- C4: a commit range whose `git log` output is empty or
whitespace-only yields an empty trailer set, and the kernel set the
matrix is expanded over is then exactly the singleton holding the
default kernel. -/
theorem claim_C4 (gitOut : List Char) (d : String) (ks : List String)
    (hws : pyStrip gitOut = [])
    (henum : KernelEnum d (getKernelTrailers gitOut) ks) :
    getKernelTrailers gitOut = [] ∧ ks = [d] := by
  have htr : getKernelTrailers gitOut = [] := by simp [getKernelTrailers, hws]
  refine ⟨htr, ?_⟩
  obtain ⟨hnd, hmem⟩ := henum
  rw [htr] at hmem
  have hd : d ∈ ks := (hmem d).mpr (Or.inl rfl)
  cases ks with
  | nil => cases hd
  | cons a t =>
    have ha : a = d := by
      have := (hmem a).mp (by simp)
      simpa using this
    subst ha
    cases t with
    | nil => rfl
    | cons b t2 =>
      have hb : b = a := by
        have := (hmem b).mp (by simp)
        simpa using this
      subst hb
      exact absurd (List.nodup_cons.mp hnd).1 (by simp)

/-- C4 witness: a whitespace-only log output (blanks, tab, newline and
a no-break space) with the default kernel. -/
theorem claim_C4_wit :
    getKernelTrailers " \n\t \u00A0".data = []
      ∧ (["stable/6_13"] : List String) = ["stable/6_13"] :=
  claim_C4 " \n\t \u00A0".data "stable/6_13" ["stable/6_13"] (by decide)
    (by
      unfold KernelEnum
      refine ⟨by simp, ?_⟩
      intro k
      have h : getKernelTrailers " \n\t \u00A0".data = [] := by decide
      rw [h]
      simp)

/-! ### Round-trip of the printed JSON -/

lemma hexVal_hexDigitChar : ∀ d : Nat, d < 16 → hexVal (hexDigitChar d) = some d := by
  decide

lemma hex4Val_toHex4 (n : Nat) (rest : List Char) (h : n < 0x10000) :
    hex4Val (toHex4 n ++ rest) = some (n, rest) := by
  have h1 := hexVal_hexDigitChar (n / 4096 % 16) (Nat.mod_lt _ (by norm_num))
  have h2 := hexVal_hexDigitChar (n / 256 % 16) (Nat.mod_lt _ (by norm_num))
  have h3 := hexVal_hexDigitChar (n / 16 % 16) (Nat.mod_lt _ (by norm_num))
  have h4 := hexVal_hexDigitChar (n % 16) (Nat.mod_lt _ (by norm_num))
  simp [toHex4, hex4Val, h1, h2, h3, h4]
  omega

/-- The valid scalar value of a character, in `Nat` form. -/
lemma char_toNat_valid (c : Char) :
    c.toNat < 0xD800 ∨ (0xDFFF < c.toNat ∧ c.toNat < 0x110000) := by
  have h := c.valid
  exact h

lemma decodeEsc_u (l : List Char) : decodeEsc ('u' :: l) = decodeU l := by
  simp [decodeEsc]

lemma decodeU_eq (n : Nat) (l rest : List Char) (h : hex4Val l = some (n, rest)) :
    decodeU l = decodeScalar n rest := by
  unfold decodeU
  rw [h]
  rfl

lemma decodeLowPart_eq (n : Nat) (rest3 : List Char) :
    decodeLowPart n ('\\' :: 'u' :: rest3)
      = (hex4Val rest3).bind fun q => combineSurrogates n q.1 q.2 := by
  rw [decodeLowPart]
  rw [if_pos ⟨rfl, rfl⟩]

/-- Every character is either passed through by the JSON escaper (and
then is not a quote or backslash), or escaped to a backslash sequence
the escape decoder inverts. -/
lemma escChar_spec (c : Char) :
    (escChar c = [c] ∧ c ≠ '"' ∧ c ≠ '\\') ∨
    (∃ tail, escChar c = '\\' :: tail ∧
      ∀ rest, decodeEsc (tail ++ rest) = some (c, rest)) := by
  by_cases h1 : c = '"'
  · right
    refine ⟨['"'], by simp [escChar, h1], fun rest => by simp [h1, decodeEsc]⟩
  by_cases h2 : c = '\\'
  · right
    refine ⟨['\\'], by simp [escChar, h1, h2], fun rest => by simp [h2, decodeEsc]⟩
  by_cases h3 : c = '\x08'
  · right
    refine ⟨['b'], by simp [escChar, h1, h2, h3], fun rest => by simp [h3, decodeEsc]⟩
  by_cases h4 : c = '\x0c'
  · right
    refine ⟨['f'], by simp [escChar, h1, h2, h3, h4], fun rest => by simp [h4, decodeEsc]⟩
  by_cases h5 : c = '\n'
  · right
    refine ⟨['n'], by simp [escChar, h1, h2, h3, h4, h5], fun rest => by simp [h5, decodeEsc]⟩
  by_cases h6 : c = '\r'
  · right
    refine ⟨['r'], by simp [escChar, h1, h2, h3, h4, h5, h6],
      fun rest => by simp [h6, decodeEsc]⟩
  by_cases h7 : c = '\t'
  · right
    refine ⟨['t'], by simp [escChar, h1, h2, h3, h4, h5, h6, h7],
      fun rest => by simp [h7, decodeEsc]⟩
  by_cases h8 : c.toNat < 0x20
  · right
    refine ⟨'u' :: toHex4 c.toNat, by simp [escChar, h1, h2, h3, h4, h5, h6, h7, h8],
      fun rest => ?_⟩
    have hv : hex4Val (toHex4 c.toNat ++ rest) = some (c.toNat, rest) :=
      hex4Val_toHex4 _ _ (by omega)
    show decodeEsc ('u' :: (toHex4 c.toNat ++ rest)) = some (c, rest)
    rw [decodeEsc_u, decodeU_eq _ _ _ hv]
    unfold decodeScalar
    rw [if_pos (by omega), Char.ofNat_toNat]
  by_cases h9 : c.toNat < 0x7f
  · left
    exact ⟨by simp [escChar, h1, h2, h3, h4, h5, h6, h7, h8, h9], h1, h2⟩
  by_cases h10 : c.toNat < 0x10000
  · right
    refine ⟨'u' :: toHex4 c.toNat,
      by simp [escChar, h1, h2, h3, h4, h5, h6, h7, h8, h9, h10], fun rest => ?_⟩
    have hv : hex4Val (toHex4 c.toNat ++ rest) = some (c.toNat, rest) :=
      hex4Val_toHex4 _ _ (by omega)
    have hval := char_toNat_valid c
    show decodeEsc ('u' :: (toHex4 c.toNat ++ rest)) = some (c, rest)
    rw [decodeEsc_u, decodeU_eq _ _ _ hv]
    unfold decodeScalar
    rw [if_pos (by omega), Char.ofNat_toNat]
  · right
    have hval := char_toNat_valid c
    have hmod := Nat.mod_lt (c.toNat - 0x10000) (show 0 < 0x400 by norm_num)
    have hhi : 0xD800 + (c.toNat - 0x10000) / 0x400 < 0x10000 := by omega
    have hlo : 0xDC00 + (c.toNat - 0x10000) % 0x400 < 0x10000 := by omega
    refine ⟨'u' :: toHex4 (0xD800 + (c.toNat - 0x10000) / 0x400)
        ++ '\\' :: 'u' :: toHex4 (0xDC00 + (c.toNat - 0x10000) % 0x400),
      by simp [escChar, h1, h2, h3, h4, h5, h6, h7, h8, h9, h10], fun rest => ?_⟩
    have hv1 : hex4Val (toHex4 (0xD800 + (c.toNat - 0x10000) / 0x400)
        ++ ('\\' :: 'u' :: (toHex4 (0xDC00 + (c.toNat - 0x10000) % 0x400) ++ rest)))
        = some (0xD800 + (c.toNat - 0x10000) / 0x400,
            '\\' :: 'u' :: (toHex4 (0xDC00 + (c.toNat - 0x10000) % 0x400) ++ rest)) :=
      hex4Val_toHex4 _ _ hhi
    have hv2 : hex4Val (toHex4 (0xDC00 + (c.toNat - 0x10000) % 0x400) ++ rest)
        = some (0xDC00 + (c.toNat - 0x10000) % 0x400, rest) :=
      hex4Val_toHex4 _ _ hlo
    have hcomb : 0x10000 + (0xD800 + (c.toNat - 0x10000) / 0x400 - 0xD800) * 0x400
        + (0xDC00 + (c.toNat - 0x10000) % 0x400 - 0xDC00) = c.toNat := by
      have := Nat.div_add_mod (c.toNat - 0x10000) 0x400
      omega
    show decodeEsc ('u' :: (toHex4 (0xD800 + (c.toNat - 0x10000) / 0x400)
        ++ ('\\' :: 'u' :: (toHex4 (0xDC00 + (c.toNat - 0x10000) % 0x400) ++ rest))))
        = some (c, rest)
    rw [decodeEsc_u, decodeU_eq _ _ _ hv1]
    unfold decodeScalar
    rw [if_neg (by omega), if_pos (by omega), decodeLowPart_eq, hv2, Option.some_bind]
    show combineSurrogates (0xD800 + (c.toNat - 0x10000) / 0x400)
        (0xDC00 + (c.toNat - 0x10000) % 0x400) rest = some (c, rest)
    unfold combineSurrogates
    rw [if_pos (by constructor <;> omega), hcomb, Char.ofNat_toNat]

lemma escChar_ne_nil (c : Char) : escChar c ≠ [] := by
  unfold escChar
  repeat' split
  all_goals simp

lemma escBody_cons (c : Char) (t : List Char) :
    escBody (c :: t) = escChar c ++ escBody t := by
  simp [escBody]

lemma escBody_length (s : List Char) : s.length ≤ (escBody s).length := by
  induction s with
  | nil => simp [escBody]
  | cons c t ih =>
    have hc : 0 < (escChar c).length := List.length_pos.mpr (escChar_ne_nil c)
    simp only [escBody_cons, List.length_append, List.length_cons]
    omega

lemma parseJStrF_cons (fuel : Nat) (c : Char) (l : List Char) :
    parseJStrF (fuel + 1) (c :: l) =
      if c = '"' then some ([], l)
      else if c = '\\' then
        match decodeEsc l with
        | none => none
        | some (d, rest2) => (parseJStrF fuel rest2).map (fun p => (d :: p.1, p.2))
      else (parseJStrF fuel l).map (fun p => (c :: p.1, p.2)) := rfl

/-- The string-body parser inverts the escaper, given enough fuel. -/
lemma parseJStrF_escBody (s : List Char) :
    ∀ (fuel : Nat) (rest : List Char), s.length < fuel →
      parseJStrF fuel (escBody s ++ '"' :: rest) = some (s, rest) := by
  induction s with
  | nil =>
    intro fuel rest h
    match fuel, h with
    | fuel + 1, _ =>
      show parseJStrF (fuel + 1) ('"' :: rest) = some ([], rest)
      rw [parseJStrF_cons, if_pos rfl]
  | cons c t ih =>
    intro fuel rest h
    match fuel, h with
    | fuel + 1, h =>
      have ht : t.length < fuel := by
        simp only [List.length_cons] at h
        omega
      rw [show escBody (c :: t) ++ '"' :: rest = escChar c ++ (escBody t ++ '"' :: rest) by
        rw [escBody_cons, List.append_assoc]]
      rcases escChar_spec c with ⟨he, hq, hb⟩ | ⟨tail, he, hd⟩
      · rw [he]
        show parseJStrF (fuel + 1) (c :: (escBody t ++ '"' :: rest)) = some (c :: t, rest)
        rw [parseJStrF_cons, if_neg hq, if_neg hb, ih fuel rest ht]
        rfl
      · rw [he]
        show parseJStrF (fuel + 1) ('\\' :: (tail ++ (escBody t ++ '"' :: rest)))
            = some (c :: t, rest)
        rw [parseJStrF_cons, if_neg (by decide), if_pos rfl, hd]
        show (parseJStrF fuel (escBody t ++ '"' :: rest)).map (fun p => (c :: p.1, p.2))
            = some (c :: t, rest)
        rw [ih fuel rest ht]
        rfl

/-- The string-literal parser inverts the literal serializer. -/
lemma parseJLit_lit (s : String) (rest : List Char) :
    parseJLit (jsonStringLit s ++ rest) = some (s.data, rest) := by
  rw [show jsonStringLit s ++ rest = '"' :: (escBody s.data ++ '"' :: rest) by
    simp [jsonStringLit, List.append_assoc]]
  show parseJLit ('"' :: (escBody s.data ++ '"' :: rest)) = some (s.data, rest)
  rw [show parseJLit ('"' :: (escBody s.data ++ '"' :: rest))
      = parseJStrF ((escBody s.data ++ '"' :: rest).length + 1)
          (escBody s.data ++ '"' :: rest) from by rw [parseJLit, if_pos rfl]]
  refine parseJStrF_escBody s.data _ rest ?_
  have := escBody_length s.data
  simp only [List.length_append, List.length_cons]
  omega

lemma expectL_append (pat rest : List Char) : expectL pat (pat ++ rest) = some rest := by
  simp [expectL, List.isPrefixOf_iff_prefix, List.prefix_append, List.drop_left]

/-- The row parser inverts the row serializer. -/
lemma parseRow_jsonRow (r : Row) (rest : List Char) :
    parseRow (jsonRowChars r ++ rest) = some (r, rest) := by
  rw [show jsonRowChars r ++ rest
      = "\x7b\"name\": ".data ++ (jsonStringLit r.name
        ++ (", \"flags\": ".data ++ (jsonStringLit r.flags
        ++ (", \"kernel\": ".data ++ (jsonStringLit r.kernel
        ++ ("\x7d".data ++ rest)))))) by simp [jsonRowChars, List.append_assoc]]
  have hmk : ∀ s : String, String.mk s.data = s := fun _ => rfl
  simp [parseRow, expectL, parseJLit_lit, List.isPrefixOf, List.drop, hmk]

lemma commaSpace_no_lead (rest : List Char) :
    (", ".data).isPrefixOf (']' :: rest) = false := by
  rw [show (", ".data : List Char) = [',', ' '] from rfl]
  simp [List.isPrefixOf]

lemma commaSpace_lead (l : List Char) :
    (", ".data).isPrefixOf (", ".data ++ l) = true := by
  simp [List.isPrefixOf_iff_prefix, List.prefix_append]

lemma commaSpace_drop (l : List Char) : (", ".data ++ l).drop 2 = l := rfl

lemma parseRowsF_succ (fuel : Nat) (l : List Char) :
    parseRowsF (fuel + 1) l =
      match parseRow l with
      | none => none
      | some (r, rest) =>
        if ", ".data.isPrefixOf rest then
          match parseRowsF fuel (rest.drop 2) with
          | none => none
          | some (rs, rest2) => some (r :: rs, rest2)
        else some ([r], rest) := rfl

/-- The row-sequence parser inverts the joined serializer, given fuel
at least the number of rows, when the input continues with the closing
bracket. -/
lemma parseRowsF_sepJoin :
    ∀ (rows : List Row) (fuel : Nat) (rest : List Char), rows ≠ [] →
      rows.length ≤ fuel →
      parseRowsF fuel (sepJoinRows rows ++ ']' :: rest) = some (rows, ']' :: rest) := by
  intro rows
  induction rows with
  | nil => exact fun _ _ h _ => absurd rfl h
  | cons r rs ih =>
    intro fuel rest _ hlen
    match fuel, hlen with
    | fuel + 1, hlen =>
      cases rs with
      | nil =>
        show parseRowsF (fuel + 1) (jsonRowChars r ++ ']' :: rest) = some ([r], ']' :: rest)
        rw [parseRowsF_succ, parseRow_jsonRow]
        simp [commaSpace_no_lead]
      | cons r2 rs2 =>
        have hlen2 : (r2 :: rs2).length ≤ fuel := by
          simp only [List.length_cons] at hlen ⊢
          omega
        have ih2 := ih fuel rest (by simp) hlen2
        rw [show sepJoinRows (r :: r2 :: rs2) ++ ']' :: rest
            = jsonRowChars r ++ (", ".data ++ (sepJoinRows (r2 :: rs2) ++ ']' :: rest)) by
          rw [show sepJoinRows (r :: r2 :: rs2)
              = jsonRowChars r ++ ", ".data ++ sepJoinRows (r2 :: rs2) from rfl]
          simp [List.append_assoc]]
        rw [parseRowsF_succ, parseRow_jsonRow]
        simp [commaSpace_lead, commaSpace_drop, ih2]

lemma jsonRowChars_length (r : Row) : 1 ≤ (jsonRowChars r).length := by
  have h10 : ("\x7b\"name\": ".data).length = 9 := by decide
  simp only [jsonRowChars, List.length_append, h10]
  omega

lemma sepJoinRows_length : ∀ rows : List Row, rows.length ≤ (sepJoinRows rows).length
  | [] => by simp [sepJoinRows]
  | [r] => by simpa [sepJoinRows] using jsonRowChars_length r
  | r :: r2 :: rs => by
    have ih := sepJoinRows_length (r2 :: rs)
    have h1 := jsonRowChars_length r
    rw [show sepJoinRows (r :: r2 :: rs)
        = jsonRowChars r ++ ", ".data ++ sepJoinRows (r2 :: rs) from rfl]
    simp only [List.length_append, List.length_cons] at *
    omega

/-- The matrix parser inverts `json.dumps` on every row list. -/
lemma jsonParse_dumps (rows : List Row) :
    jsonParseMatrix (jsonDumps rows).data = some rows := by
  cases rows with
  | nil => rfl
  | cons r rs =>
    rw [show (jsonDumps (r :: rs)).data = '[' :: (sepJoinRows (r :: rs) ++ [']']) from rfl]
    have hne : ('[' :: (sepJoinRows (r :: rs) ++ [']'])) ≠ "[]".data := by
      intro h
      rw [show ("[]".data : List Char) = ['[', ']'] from rfl] at h
      have h2 : sepJoinRows (r :: rs) ++ [']'] = [']'] := by
        injection h
      have h3 := congrArg List.length h2
      have h4 := sepJoinRows_length (r :: rs)
      simp only [List.length_append, List.length_cons, List.length_nil] at h3 h4
      omega
    unfold jsonParseMatrix
    rw [if_neg hne]
    show (if ('[' : Char) = '[' then
        match parseRowsF (sepJoinRows (r :: rs) ++ [']']).length
            (sepJoinRows (r :: rs) ++ [']']) with
        | some (rs2, rest) => if rest = "]".data then some rs2 else none
        | none => none
      else none) = some (r :: rs)
    rw [if_pos rfl]
    have hfuel : (r :: rs).length ≤ (sepJoinRows (r :: rs) ++ [']']).length := by
      have h4 := sepJoinRows_length (r :: rs)
      simp only [List.length_append, List.length_cons, List.length_nil] at h4 ⊢
      omega
    rw [show sepJoinRows (r :: rs) ++ [']'] = sepJoinRows (r :: rs) ++ ']' :: [] from rfl,
      parseRowsF_sepJoin (r :: rs) _ [] (by simp) hfuel]
    show (if ([']'] : List Char) = "]".data then some (r :: rs) else none) = some (r :: rs)
    rw [if_pos rfl]

/-- C6: every successful run prints exactly one stdout line, the line
starts with `matrix=`, and the remainder parses back as the JSON array
of row objects with exactly the three string keys `name`, `flags`,
`kernel`, namely the built matrix itself. -/
theorem claim_C6 (argv : List String) (gitOut : List Char) (ks : List String) (out : String)
    (h : pymain argv gitOut ks = .success out) :
    outcomeStdout (pymain argv gitOut ks) = [out] ∧
    ∃ rest : String, out = "matrix=" ++ rest ∧
      jsonParseMatrix rest.data = some (buildMatrix (argv.getD 1 "") ks) := by
  by_cases ha : argv.length ≠ 2
  · rw [show pymain argv gitOut ks = .usageError usageText from by simp [pymain, ha]] at h
    exact absurd h (by simp)
  · have hsucc : pymain argv gitOut ks
        = .success ("matrix=" ++ jsonDumps (buildMatrix (argv.getD 1 "") ks)) := by
      simp [pymain, ha]
    rw [hsucc] at h
    have hout : out = "matrix=" ++ jsonDumps (buildMatrix (argv.getD 1 "") ks) := by
      injection h with h1
      exact h1.symm
    subst hout
    exact ⟨by rw [hsucc]; rfl,
      jsonDumps (buildMatrix (argv.getD 1 "") ks), rfl, jsonParse_dumps _⟩

/-- C6 witness: a concrete successful run with the default kernel only. -/
theorem claim_C6_wit :
    outcomeStdout (pymain ["list-integration-tests.py", "stable/6_13"] [] ["stable/6_13"])
      = ["matrix=" ++ jsonDumps (buildMatrix "stable/6_13" ["stable/6_13"])] ∧
    ∃ rest : String,
      "matrix=" ++ jsonDumps (buildMatrix "stable/6_13" ["stable/6_13"])
        = "matrix=" ++ rest ∧
      jsonParseMatrix rest.data = some (buildMatrix "stable/6_13" ["stable/6_13"]) :=
  claim_C6 ["list-integration-tests.py", "stable/6_13"] [] ["stable/6_13"]
    ("matrix=" ++ jsonDumps (buildMatrix "stable/6_13" ["stable/6_13"])) rfl

end ListIntegrationTests
